import Mathlib

/-!
Verification of the `fake_enum!` open-enum generator (src/src/lib.rs).

The macro has two arms. Both expand a generation spec
`#[repr($t)] $(#[$meta])* $vis enum [struct] $name { $($item = $expr),* }` into:

* `#[derive(Copy,Clone,Eq,PartialEq)] #[repr(transparent)] $vis struct $name($t);`
  — a transparent single-field wrapper around the repr integer type;
* one constant per variant, `const $item: $name = $name($expr as $t);`
  (declared `$vis` in the enclosing scope in the flat arm, `pub` inside
  `impl $name` in the `enum struct` arm);
* a `Debug` impl whose `fmt` matches `self` against `Self($expr)` patterns in
  declaration order (with `allow(unreachable_patterns)`), writing
  `stringify!($item)` on the first match, and otherwise writing
  `"{}({})"` with `stringify!($name)` and the raw field value.

We embed repr types as width/signedness descriptors over `Int`, instances of a
generated type as a wrapper around the raw `Int` bit value, and the two macro
arms as functions from a generation spec to the emitted constant definitions
and formatting function.
-/

namespace FakeEnum

/-- Signedness of a fixed-width integer repr type. -/
inductive Signedness where
  | signed
  | unsigned
deriving DecidableEq, Repr

/-- Supported repr widths (`u8`/`i8` … `u64`/`i64`). -/
inductive Width where
  | w8
  | w16
  | w32
  | w64
deriving DecidableEq, Repr

/-- Bit count of a width. -/
def Width.bits : Width → Nat
  | .w8 => 8
  | .w16 => 16
  | .w32 => 32
  | .w64 => 64

/-- The `$t` parameter of the macro: a fixed-width integer type. -/
structure ReprType where
  width : Width
  sign : Signedness
deriving DecidableEq, Repr

/-- Smallest value representable in the repr type. -/
def ReprType.minVal (t : ReprType) : Int :=
  match t.sign with
  | .unsigned => 0
  | .signed => -(2 ^ (t.width.bits - 1))

/-- Largest value representable in the repr type. -/
def ReprType.maxVal (t : ReprType) : Int :=
  match t.sign with
  | .unsigned => 2 ^ t.width.bits - 1
  | .signed => 2 ^ (t.width.bits - 1) - 1

/-- Whether `x` is representable in the repr type. -/
def ReprType.inRange (t : ReprType) (x : Int) : Bool :=
  t.minVal ≤ x && x ≤ t.maxVal

/-- Semantics of a Rust `as` cast of an integer to the repr type: reduce
modulo `2^width` and reinterpret in two's complement, silently wrapping
out-of-range inputs. This is how `$expr as $t` in the constant initializers
(lib.rs:43 and lib.rs:63) evaluates. -/
def ReprType.castAs (t : ReprType) (x : Int) : Int :=
  match t.sign with
  | .unsigned => x % (2 ^ t.width.bits : Int)
  | .signed =>
    if x % (2 ^ t.width.bits : Int) < 2 ^ (t.width.bits - 1) then
      x % (2 ^ t.width.bits : Int)
    else
      x % (2 ^ t.width.bits : Int) - 2 ^ t.width.bits

/-- An instance of the generated value type `$vis struct $name($t)`
(lib.rs:38-41 and lib.rs:58-61): a transparent wrapper holding the raw bits of
the underlying integer. -/
structure FakeEnumValue where
  val : Int
deriving DecidableEq, Repr

/-- Reinterpreting a raw repr integer as the generated type
(`transmute::<$t, $name>`): the wrapper is `repr(transparent)`, so the bits
carry over unchanged. -/
def transmuteFromRepr (x : Int) : FakeEnumValue := ⟨x⟩

/-- Reinterpreting an instance back as its repr integer
(`transmute::<$name, $t>` or reading field `.0`). -/
def transmuteToRepr (v : FakeEnumValue) : Int := v.val

/-- The derived `Copy`/`Clone`: duplicating an instance yields the same value. -/
def copyInst (v : FakeEnumValue) : FakeEnumValue := v

/-- The derived `PartialEq` on the transparent struct: field-wise (bitwise)
comparison of the single underlying field. -/
def instEq (a b : FakeEnumValue) : Bool := a.val == b.val

/-- One `$item = $expr` entry of the macro input. -/
structure Variant where
  name : String
  value : Int
deriving DecidableEq, Repr

/-- The `$vis` fragment of the macro input. -/
inductive Visibility where
  | visPub
  | visPubCrate
  | visPrivate
deriving DecidableEq, Repr

/-- A generation spec: everything the macro consumes apart from the choice of
arm (flat `enum` versus nested `enum struct`). -/
structure GenerationSpec where
  reprTy : ReprType
  typeName : String
  vis : Visibility
  variants : List Variant
  extraAnnotations : List String
deriving DecidableEq, Repr

/-- Where a generated constant is declared. -/
inductive ConstScope where
  | enclosing
  | typeNamespace
deriving DecidableEq, Repr

/-- One emitted constant definition `const $item: $name = $name($expr as $t);`
together with the scope and visibility it is declared with. -/
structure ConstDef where
  name : String
  vis : Visibility
  scope : ConstScope
  value : FakeEnumValue
deriving DecidableEq, Repr

/-- The flat arm's constant definitions (lib.rs:43):
`$(#[allow(...)] $vis const $item: $name = $name($expr as $t);)*` — declared
in the scope enclosing the invocation, with the spec's visibility. -/
def generateConstsFlat (spec : GenerationSpec) : List ConstDef :=
  spec.variants.map fun vr =>
    ⟨vr.name, spec.vis, ConstScope.enclosing, ⟨spec.reprTy.castAs vr.value⟩⟩

/-- The nested (`enum struct`) arm's constant definitions (lib.rs:62-64):
`impl $name { $(#[allow(...)] pub const $item: $name = $name($expr as $t);)* }`
— declared inside the type's own namespace, always `pub` there. -/
def generateConstsNested (spec : GenerationSpec) : List ConstDef :=
  spec.variants.map fun vr =>
    ⟨vr.name, Visibility.visPub, ConstScope.typeNamespace, ⟨spec.reprTy.castAs vr.value⟩⟩

/-- The error half of `fmt::Result`, i.e. `core::fmt::Error`. -/
inductive FmtError where
  | fmtError
deriving DecidableEq, Repr

/-- The flat arm's `Debug::fmt` (lib.rs:45-53), returning `fmt::Result` with the
text written to the formatter. The match tries `Self($expr) =>
f.write_str(stringify!($item))` arms in declaration order (duplicates are
permitted via `allow(unreachable_patterns)`; the first matching arm wins), and
falls back to `e => f.write_fmt(format_args!("{}({})", stringify!($name), e.0))`.
Writing to the formatter's string buffer cannot fail. -/
def fmtDebugFlat (spec : GenerationSpec) (v : FakeEnumValue) : Except FmtError String :=
  match spec.variants.find? (fun vr => vr.value == v.val) with
  | some vr => .ok vr.name
  | none => .ok (spec.typeName ++ "(" ++ toString v.val ++ ")")

/-- The nested arm's `Debug::fmt` (lib.rs:65-73): identical match structure to
the flat arm (the arms differ only in the `::core` versus `::std` paths used
to name the formatting machinery). -/
def fmtDebugNested (spec : GenerationSpec) (v : FakeEnumValue) : Except FmtError String :=
  match spec.variants.find? (fun vr => vr.value == v.val) with
  | some vr => .ok vr.name
  | none => .ok (spec.typeName ++ "(" ++ toString v.val ++ ")")

/-- A generation-time (build-time) error in the expanded code. -/
inductive GenError where
  | literalOutOfRange (vname : String) (value : Int)
deriving DecidableEq, Repr

/-- Host-compiler typecheck of the flat arm's expansion. Each variant literal
`$expr` occurs (a) in the constant initializer `$name($expr as $t)`
(lib.rs:43), where the `as` cast compiles and silently wraps, and (b) as the
match pattern `Self($expr)` in the `Debug` impl (lib.rs:49), where it must
have type `$t`: Rust rejects an integer pattern literal that is out of range
for its type (the deny-by-default `overflowing_literals` lint; a literal of a
different suffixed type is likewise a type mismatch). So the expansion
compiles exactly when every variant literal is in range of `$t`, and on
success emits the constants of `generateConstsFlat`. -/
def compileFlat (spec : GenerationSpec) : Except GenError (List ConstDef) :=
  match spec.variants.find? (fun vr => !(spec.reprTy.inRange vr.value)) with
  | some vr => .error (.literalOutOfRange vr.name vr.value)
  | none => .ok (generateConstsFlat spec)

/-- Host-compiler typecheck of the nested arm's expansion: the `enum struct`
arm contains the same `$name($expr as $t)` initializers (lib.rs:63) and the
same `Self($expr)` patterns (lib.rs:69), so the same check applies. -/
def compileNested (spec : GenerationSpec) : Except GenError (List ConstDef) :=
  match spec.variants.find? (fun vr => !(spec.reprTy.inRange vr.value)) with
  | some vr => .error (.literalOutOfRange vr.name vr.value)
  | none => .ok (generateConstsNested spec)

/-- The `ElfType` spec from the repository's own tests (lib.rs:79-87):
`#[repr(u16)] pub enum ElfType { ET_NONE = 0, ET_REL = 1, ET_EXEC = 2,
ET_DYN = 3, ET_CORE = 4 }`. -/
def elfSpec : GenerationSpec :=
  ⟨⟨.w16, .unsigned⟩, "ElfType", .visPub,
    [⟨"ET_NONE", 0⟩, ⟨"ET_REL", 1⟩, ⟨"ET_EXEC", 2⟩, ⟨"ET_DYN", 3⟩, ⟨"ET_CORE", 4⟩], []⟩

/-- A width-8 unsigned spec with duplicate values: `{ A = 0, B = 0 }`. -/
def dupSpec : GenerationSpec :=
  ⟨⟨.w8, .unsigned⟩, "Dup", .visPub, [⟨"A", 0⟩, ⟨"B", 0⟩], []⟩

/-- A spec with a literal that does not fit in its `u8` repr: `{ Bar = 256 }`. -/
def badSpec : GenerationSpec :=
  ⟨⟨.w8, .unsigned⟩, "Foo", .visPub, [⟨"Bar", 256⟩], []⟩

/-- A width-32 signed spec with an empty variants list. -/
def emptySpec : GenerationSpec :=
  ⟨⟨.w32, .signed⟩, "Empty", .visPrivate, [], []⟩

/-- The wrapping `as` cast is the identity on values that are representable
in the repr type. -/
theorem castAs_of_inRange (t : ReprType) (x : Int) (h : t.inRange x = true) :
    t.castAs x = x := by
  obtain ⟨w, s⟩ := t
  cases w <;> cases s <;>
    simp only [ReprType.inRange, ReprType.minVal, ReprType.maxVal, ReprType.castAs,
      Width.bits, Bool.and_eq_true, decide_eq_true_eq] at h ⊢ <;>
    norm_num at h ⊢ <;> omega

/-- Scanning for a value finds the given variant when no earlier-declared
variant carries the same value. -/
theorem find?_value_first (pre post : List Variant) (vr : Variant)
    (hfirst : ∀ w ∈ pre, w.value ≠ vr.value) :
    (pre ++ vr :: post).find? (fun w => w.value == vr.value) = some vr := by
  rw [List.find?_append]
  have hpre : pre.find? (fun w => w.value == vr.value) = none := by
    rw [List.find?_eq_none]
    intro w hw
    simpa using hfirst w hw
  rw [hpre, Option.none_or]
  exact List.find?_cons_of_pos _ (by simp)

/-- Mapping a projection over a mapped list is constant when the projection of
the mapping function is constant. -/
theorem map_field_replicate {α β γ : Type} (g : β → γ) (f : α → β) (l : List α) (c : γ)
    (h : ∀ a, g (f a) = c) : (l.map f).map g = List.replicate l.length c := by
  induction l with
  | nil => rfl
  | cons a l ih => simp [ih, h, List.replicate_succ]

/-- Claim C1: a variant value literal that does not fit within the repr type's
width/signedness makes the whole macro expansion fail to compile — a fatal
generation-time type error in the caller's build (raised at the `Self($expr)`
match pattern of the generated `Debug` impl), for both the flat and the
nested arm — so no wrapped or truncated constant ever reaches a successful
build. -/
theorem out_of_range_literal_is_build_error (spec : GenerationSpec) (vr : Variant)
    (hmem : vr ∈ spec.variants) (hout : spec.reprTy.inRange vr.value = false) :
    (∃ e, compileFlat spec = .error e) ∧ (∃ e, compileNested spec = .error e) := by
  have hfind : (spec.variants.find? fun w => !(spec.reprTy.inRange w.value)).isSome := by
    cases hf : spec.variants.find? fun w => !(spec.reprTy.inRange w.value) with
    | some w => rfl
    | none =>
      rw [List.find?_eq_none] at hf
      have := hf vr hmem
      simp [hout] at this
  obtain ⟨w, hw⟩ := Option.isSome_iff_exists.mp hfind
  exact ⟨⟨GenError.literalOutOfRange w.name w.value, by simp [compileFlat, hw]⟩,
    ⟨GenError.literalOutOfRange w.name w.value, by simp [compileNested, hw]⟩⟩

/-- Witness for C1: the spec `#[repr(u8)] enum Foo { Bar = 256 }` fails to
compile in both arms. -/
theorem out_of_range_literal_is_build_error_witness :
    (∃ e, compileFlat badSpec = .error e) ∧ (∃ e, compileNested badSpec = .error e) :=
  out_of_range_literal_is_build_error badSpec ⟨"Bar", 256⟩ (by decide) (by decide)

/-- Claim C2: for every supported width and signedness and every raw integer
representable in that repr type, reinterpreting the integer as the generated
type and back yields exactly the original integer — the wrapper is
`repr(transparent)`, so this holds for all bit patterns, named or not. -/
theorem bit_identity_round_trip (t : ReprType) (x : Int) (h : t.inRange x = true) :
    transmuteToRepr (transmuteFromRepr x) = x := rfl

/-- Witness for C2: the unnamed `u16` bit pattern 40000 round-trips. -/
theorem bit_identity_round_trip_witness :
    (ReprType.mk .w16 .unsigned).inRange 40000 = true ∧
      transmuteToRepr (transmuteFromRepr 40000) = 40000 :=
  ⟨by decide, bit_identity_round_trip ⟨.w16, .unsigned⟩ 40000 (by decide)⟩

/-- Counterexample to C3 as stated: in the spec `{ A = 0, B = 0 }`, the
generated constant named `B` (the second generated constant) formats as
`"A"`, not as the literal text `"B"` of its own name. -/
theorem named_formatting_duplicate_cex :
    ((generateConstsFlat dupSpec).get ⟨1, by decide⟩).name = "B" ∧
      fmtDebugFlat dupSpec ((generateConstsFlat dupSpec).get ⟨1, by decide⟩).value = .ok "A" ∧
      fmtDebugFlat dupSpec ((generateConstsFlat dupSpec).get ⟨1, by decide⟩).value ≠ .ok "B" := by
  refine ⟨rfl, rfl, fun hcontra => ?_⟩
  have h3 : (Except.ok "A" : Except FmtError String) = .ok "B" := hcontra
  have h2 : ("A" : String) = "B" := by injection h3
  exact absurd h2 (by decide)

/-- Claim C3 (amended): for every declared `(name, value)` pair that is the
earliest-declared variant with its value, and whose value is representable in
the repr type, the generated constant (in either arm) formats as exactly the
literal text of `name`. -/
theorem named_formatting_first_declared (spec : GenerationSpec)
    (pre post : List Variant) (vr : Variant)
    (hsplit : spec.variants = pre ++ vr :: post)
    (hin : spec.reprTy.inRange vr.value = true)
    (hfirst : ∀ w ∈ pre, w.value ≠ vr.value) :
    ConstDef.mk vr.name spec.vis ConstScope.enclosing ⟨spec.reprTy.castAs vr.value⟩
        ∈ generateConstsFlat spec ∧
    ConstDef.mk vr.name Visibility.visPub ConstScope.typeNamespace ⟨spec.reprTy.castAs vr.value⟩
        ∈ generateConstsNested spec ∧
    fmtDebugFlat spec ⟨spec.reprTy.castAs vr.value⟩ = .ok vr.name ∧
    fmtDebugNested spec ⟨spec.reprTy.castAs vr.value⟩ = .ok vr.name := by
  have hmem : vr ∈ spec.variants := by
    rw [hsplit]
    exact List.mem_append_right _ (List.mem_cons_self _ _)
  have hfind : spec.variants.find? (fun w => w.value == spec.reprTy.castAs vr.value)
      = some vr := by
    rw [castAs_of_inRange _ _ hin, hsplit]
    exact find?_value_first pre post vr hfirst
  refine ⟨?_, ?_, ?_, ?_⟩
  · exact List.mem_map_of_mem _ hmem
  · exact List.mem_map_of_mem _ hmem
  · simp [fmtDebugFlat, hfind]
  · simp [fmtDebugNested, hfind]

/-- Witness for amended C3: in `{ A = 0, B = 0 }`, the constant of the
earliest-declared variant `A` formats as `"A"`. -/
theorem named_formatting_first_declared_witness :
    ConstDef.mk "A" Visibility.visPub ConstScope.enclosing ⟨dupSpec.reprTy.castAs 0⟩
        ∈ generateConstsFlat dupSpec ∧
    ConstDef.mk "A" Visibility.visPub ConstScope.typeNamespace ⟨dupSpec.reprTy.castAs 0⟩
        ∈ generateConstsNested dupSpec ∧
    fmtDebugFlat dupSpec ⟨dupSpec.reprTy.castAs 0⟩ = .ok "A" ∧
    fmtDebugNested dupSpec ⟨dupSpec.reprTy.castAs 0⟩ = .ok "A" :=
  named_formatting_first_declared dupSpec [] [⟨"B", 0⟩] ⟨"A", 0⟩ rfl (by decide) (by decide)

/-- Claim C4: for every instance whose underlying integer appears in no
declared variant, formatting (in either arm) yields exactly
`"<TypeName>(<v>)"` with the integer rendered in its natural base-10 form. -/
theorem unnamed_formatting (spec : GenerationSpec) (x : Int)
    (hin : spec.reprTy.inRange x = true)
    (hnot : ∀ vr ∈ spec.variants, vr.value ≠ x) :
    fmtDebugFlat spec ⟨x⟩ = .ok (spec.typeName ++ "(" ++ toString x ++ ")") ∧
    fmtDebugNested spec ⟨x⟩ = .ok (spec.typeName ++ "(" ++ toString x ++ ")") := by
  have hfind : spec.variants.find? (fun vr => vr.value == x) = none := by
    rw [List.find?_eq_none]
    intro w hw
    simpa using hnot w hw
  exact ⟨by simp [fmtDebugFlat, hfind], by simp [fmtDebugNested, hfind]⟩

/-- Witness for C4: raw `99` in the ElfType spec formats as `"ElfType(99)"`. -/
theorem unnamed_formatting_witness :
    fmtDebugFlat elfSpec ⟨99⟩ = .ok "ElfType(99)" ∧
      fmtDebugNested elfSpec ⟨99⟩ = .ok "ElfType(99)" :=
  unnamed_formatting elfSpec 99 (by decide) (by decide)

/-- Claim C5: two instances — however constructed — compare equal under the
derived equality exactly when their underlying integers are equal. -/
theorem equality_is_bitwise (a b : FakeEnumValue) :
    instEq a b = true ↔ transmuteToRepr a = transmuteToRepr b := by
  simp [instEq, transmuteToRepr]

/-- Claim C6: if names `va` and `vb` are declared in that order with the same
underlying value (and `va` is the earliest-declared variant with that value),
both generated constants exist, they compare equal, and formatting either
constant's value produces the earliest name `va.name`. -/
theorem duplicate_value_tie_break (spec : GenerationSpec)
    (pre mid post : List Variant) (va vb : Variant)
    (hsplit : spec.variants = pre ++ va :: (mid ++ vb :: post))
    (hval : vb.value = va.value)
    (hin : spec.reprTy.inRange va.value = true)
    (hfirst : ∀ w ∈ pre, w.value ≠ va.value) :
    ConstDef.mk va.name spec.vis ConstScope.enclosing ⟨spec.reprTy.castAs va.value⟩
        ∈ generateConstsFlat spec ∧
    ConstDef.mk vb.name spec.vis ConstScope.enclosing ⟨spec.reprTy.castAs vb.value⟩
        ∈ generateConstsFlat spec ∧
    instEq ⟨spec.reprTy.castAs va.value⟩ ⟨spec.reprTy.castAs vb.value⟩ = true ∧
    fmtDebugFlat spec ⟨spec.reprTy.castAs va.value⟩ = .ok va.name ∧
    fmtDebugFlat spec ⟨spec.reprTy.castAs vb.value⟩ = .ok va.name := by
  have hmema : va ∈ spec.variants := by
    rw [hsplit]; simp
  have hmemb : vb ∈ spec.variants := by
    rw [hsplit]; simp
  have hfind : spec.variants.find? (fun w => w.value == spec.reprTy.castAs va.value)
      = some va := by
    rw [castAs_of_inRange _ _ hin, hsplit]
    exact find?_value_first pre (mid ++ vb :: post) va hfirst
  refine ⟨?_, ?_, ?_, ?_, ?_⟩
  · exact List.mem_map_of_mem _ hmema
  · exact List.mem_map_of_mem _ hmemb
  · simp [instEq, hval]
  · simp [fmtDebugFlat, hfind]
  · rw [hval]
    simp [fmtDebugFlat, hfind]

/-- Witness for C6: in `{ A = 0, B = 0 }`, both constants exist, compare
equal, and both format as `"A"`. -/
theorem duplicate_value_tie_break_witness :
    ConstDef.mk "A" Visibility.visPub ConstScope.enclosing ⟨dupSpec.reprTy.castAs 0⟩
        ∈ generateConstsFlat dupSpec ∧
    ConstDef.mk "B" Visibility.visPub ConstScope.enclosing ⟨dupSpec.reprTy.castAs 0⟩
        ∈ generateConstsFlat dupSpec ∧
    instEq ⟨dupSpec.reprTy.castAs 0⟩ ⟨dupSpec.reprTy.castAs 0⟩ = true ∧
    fmtDebugFlat dupSpec ⟨dupSpec.reprTy.castAs 0⟩ = .ok "A" ∧
    fmtDebugFlat dupSpec ⟨dupSpec.reprTy.castAs 0⟩ = .ok "A" :=
  duplicate_value_tie_break dupSpec [] [] [] ⟨"A", 0⟩ ⟨"B", 0⟩ rfl rfl (by decide) (by decide)

/-- Claim C7: for every generation spec, the flat arm and the nested
(`enum struct`) arm produce constants with identical names and bit-identical
values, and their formatting functions agree on every instance; the arms
differ only in where and with what visibility the constants are declared. -/
theorem scope_shape_equivalence (spec : GenerationSpec) :
    (generateConstsFlat spec).map ConstDef.value
        = (generateConstsNested spec).map ConstDef.value ∧
    (generateConstsFlat spec).map ConstDef.name
        = (generateConstsNested spec).map ConstDef.name ∧
    ∀ v, fmtDebugFlat spec v = fmtDebugNested spec v := by
  refine ⟨?_, ?_, fun v => rfl⟩ <;>
    simp [generateConstsFlat, generateConstsNested]

/-- Claim C8: in the flat arm every generated constant is declared in the
enclosing scope with exactly the spec's visibility, while in the nested arm
every constant is declared in the type's own namespace and is always `pub`
there, whatever visibility the spec gives the type. -/
theorem const_visibility_and_scope (spec : GenerationSpec) :
    (generateConstsFlat spec).map ConstDef.vis
        = List.replicate spec.variants.length spec.vis ∧
    (generateConstsFlat spec).map ConstDef.scope
        = List.replicate spec.variants.length ConstScope.enclosing ∧
    (generateConstsNested spec).map ConstDef.vis
        = List.replicate spec.variants.length Visibility.visPub ∧
    (generateConstsNested spec).map ConstDef.scope
        = List.replicate spec.variants.length ConstScope.typeNamespace := by
  refine ⟨map_field_replicate _ _ _ _ fun a => rfl, map_field_replicate _ _ _ _ fun a => rfl,
    map_field_replicate _ _ _ _ fun a => rfl, map_field_replicate _ _ _ _ fun a => rfl⟩

/-- Claim C9: every bit pattern representable in the repr type is a valid
instance of the generated type — reinterpretation preserves it, copying
returns an equal instance, equality is defined on it, and formatting succeeds
(never returns a `fmt` error) in both arms, even when no variant names it. -/
theorem every_bit_pattern_valid (spec : GenerationSpec) (x : Int)
    (h : spec.reprTy.inRange x = true) :
    transmuteToRepr (transmuteFromRepr x) = x ∧
    copyInst (transmuteFromRepr x) = transmuteFromRepr x ∧
    instEq (copyInst (transmuteFromRepr x)) (transmuteFromRepr x) = true ∧
    (∃ s, fmtDebugFlat spec (transmuteFromRepr x) = .ok s) ∧
    (∃ s, fmtDebugNested spec (transmuteFromRepr x) = .ok s) := by
  refine ⟨rfl, rfl, by simp [instEq, copyInst], ?_, ?_⟩ <;>
  · cases hf : spec.variants.find? (fun vr => vr.value == (transmuteFromRepr x).val) with
    | some w => exact ⟨w.name, by simp [fmtDebugFlat, fmtDebugNested, hf]⟩
    | none =>
      exact ⟨spec.typeName ++ "(" ++ toString (transmuteFromRepr x).val ++ ")",
        by simp [fmtDebugFlat, fmtDebugNested, hf]⟩

/-- Witness for C9: the unnamed `u16` bit pattern 65535 is a fully operational
instance of the ElfType spec. -/
theorem every_bit_pattern_valid_witness :
    transmuteToRepr (transmuteFromRepr 65535) = 65535 ∧
    copyInst (transmuteFromRepr 65535) = transmuteFromRepr 65535 ∧
    instEq (copyInst (transmuteFromRepr 65535)) (transmuteFromRepr 65535) = true ∧
    (∃ s, fmtDebugFlat elfSpec (transmuteFromRepr 65535) = .ok s) ∧
    (∃ s, fmtDebugNested elfSpec (transmuteFromRepr 65535) = .ok s) :=
  every_bit_pattern_valid elfSpec 65535 (by decide)

/-- Claim C10: a spec with an empty variants list is accepted by both arms —
generation succeeds with zero constants — and the resulting type still
round-trips, copies, and compares bitwise, while every representable value
formats through the fallback rule as `"<TypeName>(<v>)"`. -/
theorem empty_variants_ok (spec : GenerationSpec) (hvars : spec.variants = [])
    (x : Int) (hin : spec.reprTy.inRange x = true) :
    compileFlat spec = .ok [] ∧
    compileNested spec = .ok [] ∧
    transmuteToRepr (transmuteFromRepr x) = x ∧
    copyInst ⟨x⟩ = ⟨x⟩ ∧
    instEq ⟨x⟩ ⟨x⟩ = true ∧
    fmtDebugFlat spec ⟨x⟩ = .ok (spec.typeName ++ "(" ++ toString x ++ ")") ∧
    fmtDebugNested spec ⟨x⟩ = .ok (spec.typeName ++ "(" ++ toString x ++ ")") := by
  refine ⟨?_, ?_, rfl, rfl, by simp [instEq], ?_, ?_⟩ <;>
    simp [compileFlat, compileNested, generateConstsFlat, generateConstsNested,
      fmtDebugFlat, fmtDebugNested, hvars]

/-- Witness for C10: the empty `i32` spec compiles to zero constants and
formats the raw value `-5` as `"Empty(-5)"`. -/
theorem empty_variants_ok_witness :
    compileFlat emptySpec = .ok [] ∧
    compileNested emptySpec = .ok [] ∧
    transmuteToRepr (transmuteFromRepr (-5)) = -5 ∧
    copyInst ⟨-5⟩ = ⟨-5⟩ ∧
    instEq ⟨-5⟩ ⟨-5⟩ = true ∧
    fmtDebugFlat emptySpec ⟨-5⟩ = .ok "Empty(-5)" ∧
    fmtDebugNested emptySpec ⟨-5⟩ = .ok "Empty(-5)" :=
  empty_variants_ok emptySpec rfl (-5) (by decide)

end FakeEnum
